import Mathlib

/-!
Shallow embedding of the lab-scheduler backend (`main.py`) for verification.

Instants are modelled as `Int` seconds since the Unix epoch in the canonical
(UTC) reference.  The configured local timezone Africa/Addis_Ababa is UTC+3
with no daylight-saving transitions, so timezone conversion is a fixed offset.
Database rows are Lean structures, the SQLite session is a `DB` record of row
lists, and each endpoint body is a function from the current `DB` (plus the
current instant, which the source obtains from `get_current_time()`) to a
result together with the committed `DB`.
-/

namespace LabSched

/-- Seconds east of UTC for the Africa/Addis_Ababa zone (UTC+3, no DST). -/
def TZ_OFFSET : Int := 10800

/-- Models `convert_to_utc` applied to a timezone-naive local wall-clock value. -/
def convert_to_utc (wall : Int) : Int := wall - TZ_OFFSET

/-- Models `convert_from_utc`: canonical instant to local wall-clock seconds. -/
def convert_from_utc (utc : Int) : Int := utc + TZ_OFFSET

/-- Local calendar day number of a canonical instant (models `.date()` of the
local-time view; day numbers compare exactly like `datetime.date` values). -/
def localDay (utc : Int) : Int := (utc + TZ_OFFSET).fdiv 86400

/-- Python `date.weekday()`: Monday = 0.  Day 0 (1970-01-01) was a Thursday. -/
def weekdayOfDay (day : Int) : Int := (day + 3).emod 7

def isLeap (y : Nat) : Bool := (y % 4 == 0 && y % 100 != 0) || y % 400 == 0

def daysInMonth (y m : Nat) : Nat :=
  if m = 2 then (if isLeap y then 29 else 28)
  else if m = 4 ∨ m = 6 ∨ m = 9 ∨ m = 11 then 30
  else 31

/-- Days since 1970-01-01 of a proleptic Gregorian civil date (y ≥ 1). -/
def daysFromCivil (y m d : Nat) : Int :=
  let yy : Nat := if m ≤ 2 then y - 1 else y
  let era : Nat := yy / 400
  let yoe : Nat := yy - era * 400
  let mp : Nat := if 2 < m then m - 3 else m + 9
  let doy : Nat := (153 * mp + 2) / 5 + (d - 1)
  let doe : Nat := yoe * 365 + yoe / 4 - yoe / 100 + doy
  (era * 146097 + doe : Int) - 719468

/-- Canonical seconds of a civil date-time treated as a plain wall-clock value. -/
def civilToSec (y m d hh mi ss : Nat) : Int :=
  daysFromCivil y m d * 86400 + ((hh * 3600 + mi * 60 + ss : Nat) : Int)

/-- Working-window start of a local day: 09:00 local converted to UTC.
Models the first component of `day_range_in_tz`. -/
def win_start (day : Int) : Int := day * 86400 + 32400 - TZ_OFFSET

/-- Working-window end of a local day: 17:00 local converted to UTC.
Models the second component of `day_range_in_tz`. -/
def win_end (day : Int) : Int := day * 86400 + 61200 - TZ_OFFSET

/-! ### String helpers

Core `String` functions such as `toLower`/`trim` are position-based and do not
reduce inside the kernel, so the embedding works on the underlying character
lists, which is extensionally the same operation. -/

def digitVal (c : Char) : Option Nat :=
  if c.isDigit then some (c.toNat - 48) else none

/-- Python `int(s)` on a plain digit string; empty or non-digit input fails. -/
def digitsToNat (cs : List Char) : Option Nat :=
  if cs = [] then none
  else
    cs.foldl
      (fun acc c =>
        match acc, digitVal c with
        | some a, some d => some (a * 10 + d)
        | _, _ => none)
      (some 0)

/-- Python `s.split(sep)` for a one-character separator. -/
def splitOnChar (c : Char) : List Char → List (List Char)
  | [] => [[]]
  | x :: xs =>
    let r := splitOnChar c xs
    if x = c then [] :: r
    else
      match r with
      | h :: t => (x :: h) :: t
      | [] => [[x]]

def lowerChars (cs : List Char) : List Char := cs.map Char.toLower

def trimChars (cs : List Char) : List Char :=
  ((cs.dropWhile Char.isWhitespace).reverse.dropWhile Char.isWhitespace).reverse

/-- Models `s.strip().lower()` (and the SQL `lower(trim(s))`, which agrees). -/
def normKey (s : String) : String := ⟨lowerChars (trimChars s.data)⟩

/-- Byte-wise string order used to model SQL `ORDER BY name ASC`. -/
def charListLe : List Char → List Char → Bool
  | [], _ => true
  | _ :: _, [] => false
  | a :: as, b :: bs =>
    if a.toNat < b.toNat then true
    else if b.toNat < a.toNat then false
    else charListLe as bs

/-! ### Datetime parsing

`create_booking_student` accepts either the datetime-local shape
`YYYY-MM-DDTHH:MM` (parsed with `strptime`, always timezone-naive) or an ISO
string handed to `fromisoformat` after replacing `Z` with `+00:00` (naive or
with a fixed UTC offset).  `toggle_day_booking` splits its date on `-`. -/

/-- Result of parsing one datetime string: a naive wall-clock value or an
offset-aware value already converted to the canonical instant. -/
inductive PyDateTime where
  | naive (wall : Int)
  | aware (utc : Int)
deriving DecidableEq, Repr

def parse2 (a b : Char) : Option Nat :=
  match digitVal a, digitVal b with
  | some x, some y => some (x * 10 + y)
  | _, _ => none

def parse4 (a b c d : Char) : Option Nat :=
  match digitVal a, digitVal b, digitVal c, digitVal d with
  | some w, some x, some y, some z => some (((w * 10 + x) * 10 + y) * 10 + z)
  | _, _, _, _ => none

/-- Optional trailing UTC offset `±HH:MM` of an ISO string (minutes east). -/
def parseTzTail (cs : List Char) : Option (Option Int) :=
  match cs with
  | [] => some none
  | [sg, a, b, sep, c, d] =>
    if sep = ':' then
      match parse2 a b, parse2 c d with
      | some hh, some mi =>
        if hh ≤ 23 ∧ mi ≤ 59 then
          if sg = '+' then some (some ((hh * 60 + mi : Nat) : Int))
          else if sg = '-' then some (some (-((hh * 60 + mi : Nat) : Int)))
          else none
        else none
      | _, _ => none
    else none
  | _ => none

/-- Optional `:SS` seconds followed by the optional offset. -/
def parseSecTail (cs : List Char) : Option (Nat × Option Int) :=
  match cs with
  | ':' :: a :: b :: rest =>
    match parse2 a b with
    | some ss => if ss ≤ 59 then (parseTzTail rest).map (fun o => (ss, o)) else none
    | none => none
  | rest => (parseTzTail rest).map (fun o => (0, o))

/-- Models `datetime.fromisoformat` on `YYYY-MM-DD{T or space}HH:MM[:SS][±HH:MM]`. -/
def parseIsoChars (cs : List Char) : Option PyDateTime :=
  match cs with
  | y1 :: y2 :: y3 :: y4 :: s1 :: m1 :: m2 :: s2 :: d1 :: d2 :: sep :: h1 :: h2 :: s3 :: n1 :: n2 :: rest =>
    if s1 = '-' ∧ s2 = '-' ∧ (sep = 'T' ∨ sep = ' ') ∧ s3 = ':' then
      match parse4 y1 y2 y3 y4, parse2 m1 m2, parse2 d1 d2, parse2 h1 h2, parse2 n1 n2,
          parseSecTail rest with
      | some y, some m, some d, some hh, some mi, some (ss, off) =>
        if 1 ≤ y ∧ y ≤ 9999 ∧ 1 ≤ m ∧ m ≤ 12 ∧ 1 ≤ d ∧ d ≤ daysInMonth y m ∧ hh ≤ 23 ∧ mi ≤ 59 then
          match off with
          | none => some (.naive (civilToSec y m d hh mi ss))
          | some offMin => some (.aware (civilToSec y m d hh mi ss - offMin * 60))
        else none
      | _, _, _, _, _, _ => none
    else none
  | _ => none

/-- Python `s.replace("Z", "+00:00")`. -/
def replaceZ : List Char → List Char
  | [] => []
  | c :: cs =>
    if c = 'Z' then '+' :: '0' :: '0' :: ':' :: '0' :: '0' :: replaceZ cs
    else c :: replaceZ cs

/-- Models `datetime.strptime(s, "%Y-%m-%dT%H:%M")` on the canonical 16-char shape. -/
def parseDtLocal16 (cs : List Char) : Option Int :=
  match cs with
  | [y1, y2, y3, y4, s1, m1, m2, s2, d1, d2, sep, h1, h2, s3, n1, n2] =>
    if s1 = '-' ∧ s2 = '-' ∧ sep = 'T' ∧ s3 = ':' then
      match parse4 y1 y2 y3 y4, parse2 m1 m2, parse2 d1 d2, parse2 h1 h2, parse2 n1 n2 with
      | some y, some m, some d, some hh, some mi =>
        if 1 ≤ y ∧ y ≤ 9999 ∧ 1 ≤ m ∧ m ≤ 12 ∧ 1 ≤ d ∧ d ≤ daysInMonth y m ∧ hh ≤ 23 ∧ mi ≤ 59 then
          some (civilToSec y m d hh mi 0)
        else none
      | _, _, _, _, _ => none
    else none
  | _ => none

/-- Models `convert_to_utc` on a parsed datetime: localize naive values in the
configured zone, keep offset-aware values (already canonical). -/
def pydtToUtc : PyDateTime → Int
  | .naive w => w - TZ_OFFSET
  | .aware u => u

/-- Branch choice in `create_booking_student`: the datetime-local parser when
the START string contains `T` and has length 16, else `fromisoformat` with `Z`
replaced — the same branch is used for both inputs. -/
def parse_booking_dt (shapeLocal : Bool) (s : String) : Option PyDateTime :=
  if shapeLocal then (parseDtLocal16 s.data).map .naive
  else parseIsoChars (replaceZ s.data)

/-- Models the date parse of `toggle_day_booking`:
`year, month, day = map(int, payload.date.split("-"))` then `datetime(y, m, d)`. -/
def parseDateToggle (s : String) : Option (Nat × Nat × Nat) :=
  match (splitOnChar '-' s.data).map digitsToNat with
  | [some y, some m, some d] =>
    if 1 ≤ y ∧ y ≤ 9999 ∧ 1 ≤ m ∧ m ≤ 12 ∧ 1 ≤ d ∧ d ≤ daysInMonth y m then
      some (y, m, d)
    else none
  | _ => none

/-! ### Entity rows and database state -/

structure UserR where
  id : Nat
  username : String
  email : String
  is_active : Bool
deriving DecidableEq, Repr

structure StudentR where
  id : Nat
  name : String
  email : String
  student_id : String
  user_id : Option Nat
  study : Option String
  department : Option String
  registered_at : Option Int
  active : Option Bool
  usage_days_total : Option Int
  usage_days_remaining : Option Int
  usage_last_decrement_at : Option Int
deriving DecidableEq, Repr

structure ComputerR where
  id : Nat
  name : String
  status : String
  current_user : Option String
  last_updated : Int
deriving DecidableEq, Repr

structure BookingR where
  id : Nat
  computer_id : Nat
  student_id : Nat
  start_time : Int
  end_time : Int
  status : String
  created_at : Int
deriving DecidableEq, Repr

structure DB where
  users : List UserR
  students : List StudentR
  computers : List ComputerR
  bookings : List BookingR
deriving DecidableEq, Repr

/-- An `HTTPException`: status code plus detail message. -/
structure Err where
  status : Nat
  detail : String
deriving DecidableEq, Repr

instance instDecEqExcept {ε α : Type} [DecidableEq ε] [DecidableEq α] :
    DecidableEq (Except ε α) := fun a b =>
  match a, b with
  | .ok x, .ok y =>
    if h : x = y then .isTrue (by rw [h]) else .isFalse (fun hc => h (by cases hc; rfl))
  | .error x, .error y =>
    if h : x = y then .isTrue (by rw [h]) else .isFalse (fun hc => h (by cases hc; rfl))
  | .ok _, .error _ => .isFalse (fun hc => by cases hc)
  | .error _, .ok _ => .isFalse (fun hc => by cases hc)

def findUser (db : DB) (uid : Nat) : Option UserR :=
  db.users.find? (fun u => u.id == uid)

def findStudent (db : DB) (sid : Nat) : Option StudentR :=
  db.students.find? (fun s => s.id == sid)

def findComputer (db : DB) (cid : Nat) : Option ComputerR :=
  db.computers.find? (fun c => c.id == cid)

/-- `db.query(Student).filter(Student.user_id == uid).first()`. -/
def findStudentByUser (db : DB) (uid : Nat) : Option StudentR :=
  db.students.find? (fun s => s.user_id == some uid)

/-- Next autoincrement id for the bookings table. -/
def freshBookingId (db : DB) : Nat :=
  db.bookings.foldr (fun b acc => max b.id acc) 0 + 1

/-- Next autoincrement id for the students table. -/
def freshStudentId (db : DB) : Nat :=
  db.students.foldr (fun s acc => max s.id acc) 0 + 1

/-- Replace the student row with matching id (ORM attribute mutation + commit). -/
def setStudent (db : DB) (s' : StudentR) : DB :=
  { db with students := db.students.map (fun s => if s.id = s'.id then s' else s) }

/-- Replace the computer row with matching id. -/
def setComputer (db : DB) (c' : ComputerR) : DB :=
  { db with computers := db.computers.map (fun c => if c.id = c'.id then c' else c) }

/-- `Booking.status.in_(["scheduled", "active"])`. -/
def isSchedActive (st : String) : Bool := st == "scheduled" || st == "active"

/-- Booking-overlap filter of `create_booking_student` and of the
computer-availability check of `toggle_day_booking`: strict half-open
comparison against the requested `[s, e)` interval. -/
def booking_conflict_pred (cid : Nat) (s e : Int) (b : BookingR) : Bool :=
  b.computer_id == cid && isSchedActive b.status &&
    decide (b.start_time < e) && decide (b.end_time > s)

/-- Existing-booking filter of `toggle_day_booking` and the day-cell filter of
`get_week_schedule`: inclusive comparison against the day window `[ws, we]`. -/
def day_overlap_pred (sid : Nat) (ws we : Int) (b : BookingR) : Bool :=
  b.student_id == sid && decide (b.start_time ≤ we) &&
    decide (b.end_time ≥ ws) && isSchedActive b.status

/-! ### Endpoint: student self-service booking (`create_booking_student`) -/

structure StudentBookingCreate where
  computer_id : Nat
  start_time : String
  end_time : String
deriving DecidableEq, Repr

/-- Zero-padded `f"STU{id:03d}"`. -/
def pad3 (n : Nat) : String :=
  if n < 10 then "STU00" ++ toString n
  else if n < 100 then "STU0" ++ toString n
  else "STU" ++ toString n

/-- Student lookup of `create_booking_student`, creating (and committing) a
fresh student row for the authenticated user when none exists. -/
def resolve_student (db : DB) (cu : UserR) : DB × StudentR :=
  match findStudentByUser db cu.id with
  | some s => (db, s)
  | none =>
    let s : StudentR :=
      { id := freshStudentId db, name := cu.username, email := cu.email,
        student_id := pad3 cu.id, user_id := some cu.id, study := none,
        department := none, registered_at := none, active := some true,
        usage_days_total := none, usage_days_remaining := none,
        usage_last_decrement_at := none }
    ({ db with students := db.students ++ [s] }, s)

def invalidDatetimeErr : Err := ⟨400, "Invalid datetime format"⟩

def slotConflictErr : Err := ⟨400, "Computer is not available for the requested time slot"⟩

/-- Models the body of `POST /api/student/bookings`.  Returns the session state
after the handler ran (the lazily created student row persists even when a
later step fails) together with the response. -/
def create_booking_student (db : DB) (cu : UserR) (now : Int)
    (bk : StudentBookingCreate) : DB × Except Err BookingR :=
  let resolved := resolve_student db cu
  let db1 := resolved.1
  let student := resolved.2
  let shapeLocal := bk.start_time.data.contains 'T' && bk.start_time.data.length == 16
  match parse_booking_dt shapeLocal bk.start_time, parse_booking_dt shapeLocal bk.end_time with
  | some pst, some pet =>
    let su := pydtToUtc pst
    let eu := pydtToUtc pet
    if 0 < (db1.bookings.filter (booking_conflict_pred bk.computer_id su eu)).length then
      (db1, .error slotConflictErr)
    else
      let nb : BookingR :=
        { id := freshBookingId db1, computer_id := bk.computer_id,
          student_id := student.id, start_time := su, end_time := eu,
          status := "scheduled", created_at := now }
      ({ db1 with bookings := db1.bookings ++ [nb] }, .ok nb)
  | _, _ => (db1, .error invalidDatetimeErr)

/-! ### Endpoint: admin day-toggle booking (`toggle_day_booking`) -/

structure ToggleDayPayload where
  student_id : Nat
  date : String
  computer_id : Option Nat
deriving DecidableEq, Repr

inductive ToggleResult where
  | removed
  | added (booking_id : Nat)
deriving DecidableEq, Repr

def invalidDateErr : Err := ⟨400, "Invalid date format"⟩

def computerRequiredErr : Err := ⟨400, "computer_id required to add booking"⟩

def dayConflictErr : Err := ⟨400, "Computer not available for selected day"⟩

/-- Models the body of `POST /api/admin/schedule/toggle`.  An error means the
handler raised before any commit, leaving the store unchanged. -/
def toggle_day_booking (db : DB) (p : ToggleDayPayload) (now : Int) :
    Except Err (DB × ToggleResult) :=
  match parseDateToggle p.date with
  | none => .error invalidDateErr
  | some (y, m, d) =>
    let day := daysFromCivil y m d
    let ws := win_start day
    let we := win_end day
    match db.bookings.find? (day_overlap_pred p.student_id ws we) with
    | some ex =>
      .ok ({ db with bookings := db.bookings.filter (fun b => b.id ≠ ex.id) }, .removed)
    | none =>
      match p.computer_id with
      | none => .error computerRequiredErr
      | some cid =>
        if cid = 0 then .error computerRequiredErr
        else if 0 < (db.bookings.filter (booking_conflict_pred cid ws we)).length then
          .error dayConflictErr
        else
          let nb : BookingR :=
            { id := freshBookingId db, computer_id := cid, student_id := p.student_id,
              start_time := ws, end_time := we, status := "scheduled", created_at := now }
          .ok ({ db with bookings := db.bookings ++ [nb] }, .added nb.id)

/-! ### Endpoint: admin direct assignment (`admin_assign`) -/

def notFoundErr : Err := ⟨404, "Computer or Student not found"⟩

def quotaErr : Err := ⟨400, "Student's usage days have expired"⟩

def inactiveErr : Err := ⟨400, "Student is inactive and cannot be assigned"⟩

def busyErr : Err := ⟨400, "Computer already in use"⟩

/-- Precondition (b): `usage_days_remaining is not None and <= 0`. -/
def quotaExhausted (s : StudentR) : Bool :=
  match s.usage_days_remaining with
  | some r => decide (r ≤ 0)
  | none => false

/-- Precondition (c): `if student.user_id:` (Python truthiness, so id 0 is
skipped) and the linked user exists and is inactive. -/
def linkedUserInactive (db : DB) (s : StudentR) : Bool :=
  match s.user_id with
  | some uid =>
    if uid = 0 then false
    else
      match findUser db uid with
      | some u => !u.is_active
      | none => false
  | none => false

/-- The once-per-local-day guard: no previous decrement instant, or the current
local date is strictly later than the local date of the last decrement. -/
def shouldDecrement (s : StudentR) (now : Int) : Bool :=
  match s.usage_last_decrement_at with
  | none => true
  | some last => decide (localDay last < localDay now)

/-- The usage-decrement block of `admin_assign`, acting on the student row. -/
def applyDecrement (s : StudentR) (now : Int) : StudentR :=
  match s.usage_days_remaining with
  | none => s
  | some r =>
    if shouldDecrement s now && decide (0 < r) then
      { s with usage_days_remaining := some (r - 1),
               usage_last_decrement_at := some now,
               active := if r - 1 ≤ 0 then some false else s.active }
    else s

/-- Models the body of `POST /api/admin/assign`.  Returns the committed store
and the reported `usage_days_remaining`; an error leaves the store unchanged. -/
def admin_assign (db : DB) (computer_id student_id : Nat) (now : Int) :
    Except Err (DB × Option Int) :=
  match findComputer db computer_id, findStudent db student_id with
  | none, _ => .error notFoundErr
  | some _, none => .error notFoundErr
  | some computer, some student =>
    if quotaExhausted student then .error quotaErr
    else if linkedUserInactive db student then .error inactiveErr
    else if student.active = some false then .error inactiveErr
    else if computer.status = "in_use" then .error busyErr
    else
      let student' := applyDecrement student now
      let computer' :=
        { computer with status := "in_use", current_user := some student.name,
                        last_updated := now }
      .ok (setComputer (setStudent db student') computer', student'.usage_days_remaining)

/-! ### Endpoint: admin student creation (`create_student_admin`) -/

structure StudentCreate where
  name : String
  email : String
  student_id : String
  study : Option String
  department : Option String
  date : Option String
  usage_days : Option Int
deriving DecidableEq, Repr

/-- Optional registration-date parse of `create_student_admin`; every parse
failure is swallowed (`except Exception: pass`), leaving `None`. -/
def parseRegDate (d : Option String) : Option Int :=
  match d with
  | none => none
  | some s =>
    if s.data = [] then none
    else if s.data.length = 10 then
      match parseDateToggle s with
      | some (y, m, dd) => some (daysFromCivil y m dd * 86400 - TZ_OFFSET)
      | none => none
    else (parseIsoChars s.data).map pydtToUtc

/-- Duplicate pre-check of `create_student_admin`:
`lower(trim(student_id)) == sid OR lower(trim(email)) == email`. -/
def dupPrecheck (students : List StudentR) (sid email : String) : Option StudentR :=
  students.find? (fun st => normKey st.student_id == sid || normKey st.email == email)

/-- Storage-layer unique constraints on `students.student_id` / `students.email`
(exact value equality): a violating insert raises `IntegrityError`. -/
def uniqueViolation (students : List StudentR) (sid email : String) : Bool :=
  students.any (fun st => st.student_id == sid || st.email == email)

def dupDetail (dup : StudentR) (sid email : String) : String :=
  if dup.student_id == sid && dup.email == email then "Student ID and email already exist"
  else if dup.student_id == sid then "Student ID already exists"
  else if dup.email == email then "Email already exists"
  else "Duplicate student"

def raceConflictErr : Err := ⟨409, "Student ID or email already exists"⟩

/-- Models the body of `POST /api/admin/students`.  `dbPre` is the session
state seen by the duplicate pre-check and `dbIns` the state at the point of the
insert: with no interleaving they coincide, and a concurrent insert between the
two steps is modelled by `dbIns` containing the extra row.  On `IntegrityError`
the transaction rolls back, so errors leave the store unchanged. -/
def create_student_admin (dbPre dbIns : DB) (p : StudentCreate) :
    Except Err (DB × StudentR) :=
  let sid := normKey p.student_id
  let email := normKey p.email
  match dupPrecheck dbPre.students sid email with
  | some dup => .error ⟨409, dupDetail dup sid email⟩
  | none =>
    if uniqueViolation dbIns.students sid email then .error raceConflictErr
    else
      let usage : Option Int :=
        match p.usage_days with
        | some n => if 0 < n then some n else none
        | none => none
      let st : StudentR :=
        { id := freshStudentId dbIns, name := p.name, email := email,
          student_id := sid, user_id := none, study := p.study,
          department := p.department, registered_at := parseRegDate p.date,
          active := some true, usage_days_total := usage,
          usage_days_remaining := usage, usage_last_decrement_at := none }
      .ok ({ dbIns with students := dbIns.students ++ [st] }, st)

/-! ### Endpoint: admin usage adjustment (`update_student_usage`) -/

def studentNotFoundErr : Err := ⟨404, "Student not found"⟩

/-- Models the body of `POST /api/admin/students/[id]/usage`: returns the
committed store and the reported (total, remaining) pair. -/
def update_student_usage (db : DB) (student_id : Nat) (days : Int) :
    Except Err (DB × Option Int × Option Int) :=
  match findStudent db student_id with
  | none => .error studentNotFoundErr
  | some s =>
    if days = 0 then .ok (db, s.usage_days_total, s.usage_days_remaining)
    else
      let t' := max 0 (s.usage_days_total.getD 0 + days)
      let r' := max 0 (s.usage_days_remaining.getD 0 + days)
      let s' :=
        { s with usage_days_total := some t', usage_days_remaining := some r',
                 active := if 0 < r' then some true else s.active }
      .ok (setStudent db s', some t', some r')

/-! ### Endpoint: weekly schedule (`get_week_schedule`) -/

structure DayCell where
  day : Int
  has_booking : Bool
  booking_id : Option Nat
  comp_id : Option Nat
deriving DecidableEq, Repr

structure ScheduleRow where
  row_student_id : Nat
  student_name : String
  days : List DayCell
deriving DecidableEq, Repr

structure WeekSchedule where
  week_start : Int
  week_end : Int
  rows : List ScheduleRow
  computers : List (Nat × String)
deriving DecidableEq, Repr

/-- First element of a booking list minimising `start_time` (earlier list
position wins ties), modelling `.order_by(Booking.start_time.asc()).first()`. -/
def minByStart : List BookingR → Option BookingR
  | [] => none
  | b :: rest =>
    match minByStart rest with
    | none => some b
    | some m => if m.start_time < b.start_time then some m else some b

/-- One grid cell: the earliest scheduled/active booking of the student whose
interval meets the inclusive window of the given local day, if any. -/
def dayCell (bs : List BookingR) (sid : Nat) (day : Int) : DayCell :=
  match minByStart (bs.filter (day_overlap_pred sid (win_start day) (win_end day))) with
  | some b => ⟨day, true, some b.id, some b.computer_id⟩
  | none => ⟨day, false, none, none⟩

/-- The five local day numbers Monday..Friday of the current local week,
models `get_monday` plus the 5-day range. -/
def weekDays (now : Int) : List Int :=
  let monday := localDay now - weekdayOfDay (localDay now)
  (List.range 5).map (fun i => monday + (i : Int))

def nameLe (a b : StudentR) : Prop := charListLe a.name.data b.name.data = true

instance : DecidableRel nameLe := fun a b =>
  inferInstanceAs (Decidable (charListLe a.name.data b.name.data = true))

def compNameLe (a b : ComputerR) : Prop := charListLe a.name.data b.name.data = true

instance : DecidableRel compNameLe := fun a b =>
  inferInstanceAs (Decidable (charListLe a.name.data b.name.data = true))

/-- Models the body of `GET /api/admin/schedule/week`: a pure projection of the
store (the handler performs no write). -/
def get_week_schedule (db : DB) (now : Int) : WeekSchedule :=
  let days := weekDays now
  let students := List.insertionSort nameLe db.students
  let comps := List.insertionSort compNameLe db.computers
  { week_start := days.headI, week_end := (days.getLast?).getD 0,
    rows := students.map (fun s => ⟨s.id, s.name, days.map (dayCell db.bookings s.id)⟩),
    computers := comps.map (fun c => (c.id, c.name)) }

/-- Spec-level qualification of a booking for a student's day cell, the
propositional form of `day_overlap_pred` at that day's working window. -/
def dayQualifies (sid : Nat) (day : Int) (b : BookingR) : Prop :=
  b.student_id = sid ∧ (b.status = "scheduled" ∨ b.status = "active") ∧
    b.start_time ≤ win_end day ∧ win_start day ≤ b.end_time

instance (sid : Nat) (day : Int) (b : BookingR) : Decidable (dayQualifies sid day b) := by
  unfold dayQualifies; infer_instance

/-! ### Concrete test states

2024-03-04 is a Monday; its local day number is 19786 and its working window
is `[1709532000, 1709560800)` in canonical seconds (09:00-17:00 UTC+3). -/

def u3 : UserR := ⟨3, "alice", "alice@x", true⟩

def s7 : StudentR :=
  ⟨7, "Alice", "alice@x", "stu007", some 3, none, none, none, some true, none, none, none⟩

/-- Existing booking 10:00-11:00 local on computer 1 (UTC 07:00-08:00). -/
def b10to11 : BookingR := ⟨1, 1, 7, 1709535600, 1709539200, "scheduled", 0⟩

def c1db : DB := ⟨[u3], [s7], [⟨1, "PC1", "available", none, 0⟩], [b10to11]⟩

def c1bkOverlap : StudentBookingCreate := ⟨1, "2024-03-04T10:30", "2024-03-04T11:30"⟩

def c1bkBack : StudentBookingCreate := ⟨1, "2024-03-04T11:00", "2024-03-04T12:00"⟩

def c2student : StudentR :=
  ⟨5, "Stu", "stu@x", "s5", none, none, none, none, some true, none, none, none⟩

/-- Booking 07:00-09:00 local on computer 3: it ends exactly at the window
start of Monday 2024-03-04, so it does not half-open-overlap the window. -/
def c2boundary : BookingR := ⟨1, 3, 5, 1709524800, 1709532000, "scheduled", 0⟩

def c2db : DB := ⟨[], [c2student], [⟨2, "PC2", "available", none, 0⟩], [c2boundary]⟩

def c2payload : ToggleDayPayload := ⟨5, "2024-03-04", some 2⟩

def c2dbClean : DB := ⟨[], [c2student], [⟨2, "PC2", "available", none, 0⟩], []⟩

def c9payload : ToggleDayPayload := ⟨5, "2024-03-04", some 0⟩

/-- An inactive student with an exhausted quota, linked to an inactive user. -/
def s9inactive : StudentR :=
  ⟨9, "Bob", "bob@x", "s9", some 4, none, none, none, some false, some 3, some 0, none⟩

def c10db : DB := ⟨[⟨4, "bob", "bob@x", false⟩], [s9inactive], [⟨1, "PC1", "available", none, 0⟩], []⟩

def c10user : UserR := ⟨4, "bob", "bob@x", false⟩

def c10bk : StudentBookingCreate := ⟨1, "2024-03-04T10:00", "2024-03-04T11:00"⟩

/-- A student with one remaining usage day and no prior decrement. -/
def c3student : StudentR :=
  ⟨5, "Eve", "eve@x", "s5e", none, none, none, none, some true, some 1, some 1, none⟩

def c3db : DB := ⟨[], [c3student], [⟨2, "PC2", "available", none, 0⟩], []⟩

/-- The state after the first successful `admin_assign` on `c3db`. -/
def c3db2 : DB :=
  ⟨[], [⟨5, "Eve", "eve@x", "s5e", none, none, none, none, some false, some 1, some 0,
      some 1709550000⟩],
    [⟨2, "PC2", "in_use", some "Eve", 1709550000⟩], []⟩

def c4userInactive : UserR := ⟨4, "u4", "u4@x", false⟩

/-- Fails `admin_assign` precondition (c) only: linked user inactive, own flag true. -/
def c4studentC : StudentR :=
  ⟨1, "C", "c@x", "sc", some 4, none, none, none, some true, none, none, none⟩

def c4dbC : DB := ⟨[c4userInactive], [c4studentC], [⟨1, "PC", "available", none, 0⟩], []⟩

/-- Fails `admin_assign` precondition (d) only: no linked user, own flag false. -/
def c4studentD : StudentR :=
  ⟨1, "D", "d@x", "sd", none, none, none, none, some false, none, none, none⟩

def c4dbD : DB := ⟨[], [c4studentD], [⟨1, "PC", "available", none, 0⟩], []⟩

/-- Booking ending exactly at the window start of Monday 2024-03-04. -/
def c5booking : BookingR := ⟨1, 2, 5, 1709524800, 1709532000, "scheduled", 0⟩

def c5db : DB := ⟨[], [c2student], [⟨2, "PC2", "available", none, 0⟩], [c5booking]⟩

/-- Monday 2024-03-04 around local midday, in canonical seconds. -/
def c5now : Int := 1709550000

def c6student : StudentR :=
  ⟨6, "Tom", "tom@x", "s6", none, none, none, none, some true, none, none, none⟩

/-- Booking 07:00-09:00 local on Monday 2024-03-04: its end instant equals the
window start, so it does not half-open-overlap that day's working window. -/
def c6booking : BookingR := ⟨2, 4, 6, 1709524800, 1709532000, "scheduled", 0⟩

def c6db : DB := ⟨[], [c6student], [⟨4, "PC4", "available", none, 0⟩], [c6booking]⟩

def c6now : Int := 1709550000

def emptyDB : DB := ⟨[], [], [], []⟩

def p7first : StudentCreate := ⟨"Ann", "X@Y.com", "DuP123", none, none, none, none⟩

def p7second : StudentCreate := ⟨"Ann2", "x@y.com", "dup123", none, none, none, none⟩

def s7row : StudentR :=
  ⟨1, "Ann", "x@y.com", "dup123", none, none, none, none, some true, none, none, none⟩

def p7race : StudentCreate := ⟨"R", "r@y.com", "race1", none, none, none, none⟩

/-- Insert-time snapshot holding an exact duplicate of `p7race`'s key. -/
def db7race : DB :=
  ⟨[], [⟨1, "Other", "z@z.com", "race1", none, none, none, none, some true, none, none, none⟩],
    [], []⟩

/-! ### Helper lemmas -/

theorem isSchedActive_iff (st : String) :
    isSchedActive st = true ↔ st = "scheduled" ∨ st = "active" := by
  simp [isSchedActive]

theorem booking_conflict_pred_iff (cid : Nat) (s e : Int) (b : BookingR) :
    booking_conflict_pred cid s e b = true ↔
      b.computer_id = cid ∧ (b.status = "scheduled" ∨ b.status = "active") ∧
        b.start_time < e ∧ s < b.end_time := by
  simp [booking_conflict_pred, isSchedActive, and_assoc, gt_iff_lt]

theorem day_overlap_pred_iff (sid : Nat) (ws we : Int) (b : BookingR) :
    day_overlap_pred sid ws we b = true ↔
      b.student_id = sid ∧ (b.status = "scheduled" ∨ b.status = "active") ∧
        b.start_time ≤ we ∧ ws ≤ b.end_time := by
  simp [day_overlap_pred, isSchedActive, ge_iff_le]
  tauto

theorem day_overlap_pred_iff_qualifies (sid : Nat) (day : Int) (b : BookingR) :
    day_overlap_pred sid (win_start day) (win_end day) b = true ↔ dayQualifies sid day b :=
  day_overlap_pred_iff sid (win_start day) (win_end day) b

theorem filter_pos_iff {α : Type} (p : α → Bool) (l : List α) :
    0 < (l.filter p).length ↔ ∃ b ∈ l, p b = true := by
  rw [List.length_pos]
  constructor
  · intro h
    rcases List.exists_mem_of_ne_nil _ h with ⟨x, hx⟩
    exact ⟨x, List.mem_of_mem_filter hx, List.of_mem_filter hx⟩
  · rintro ⟨b, hb, hpb⟩ hnil
    have : b ∈ l.filter p := List.mem_filter.mpr ⟨hb, hpb⟩
    simp [hnil] at this

theorem mem_le_foldr_max (l : List BookingR) (b : BookingR) (hb : b ∈ l) :
    b.id ≤ l.foldr (fun x acc => max x.id acc) 0 := by
  induction l with
  | nil => cases hb
  | cons x xs ih =>
    rcases List.mem_cons.mp hb with h | h
    · subst h; exact Nat.le_max_left _ _
    · exact Nat.le_trans (ih h) (Nat.le_max_right _ _)

theorem id_lt_freshBookingId (db : DB) (b : BookingR) (hb : b ∈ db.bookings) :
    b.id < freshBookingId db :=
  Nat.lt_succ_of_le (mem_le_foldr_max _ _ hb)

theorem find?_append_none {α : Type} (p : α → Bool) (l₁ l₂ : List α)
    (h : l₁.find? p = none) : (l₁ ++ l₂).find? p = l₂.find? p := by
  induction l₁ with
  | nil => rfl
  | cons x xs ih =>
    rw [List.find?_cons] at h
    rcases hpx : p x with _ | _
    · simp only [List.cons_append, List.find?_cons, hpx]
      exact ih (by simpa [hpx] using h)
    · simp [hpx] at h

theorem minByStart_eq_none {l : List BookingR} : minByStart l = none ↔ l = [] := by
  cases l with
  | nil => simp [minByStart]
  | cons b rest =>
    simp only [minByStart]
    cases h : minByStart rest <;> simp [h]
    split <;> simp

theorem minByStart_mem : ∀ {l : List BookingR} {m : BookingR}, minByStart l = some m → m ∈ l := by
  intro l
  induction l with
  | nil => intro m h; simp [minByStart] at h
  | cons b rest ih =>
    intro m h
    simp only [minByStart] at h
    cases hr : minByStart rest with
    | none =>
      rw [hr] at h
      dsimp only at h
      cases h
      exact List.mem_cons_self _ _
    | some m' =>
      rw [hr] at h
      dsimp only at h
      by_cases hlt : m'.start_time < b.start_time
      · rw [if_pos hlt] at h; cases h; exact List.mem_cons_of_mem _ (ih hr)
      · rw [if_neg hlt] at h; cases h; exact List.mem_cons_self _ _

theorem minByStart_min : ∀ {l : List BookingR} {m : BookingR}, minByStart l = some m →
    ∀ x ∈ l, m.start_time ≤ x.start_time := by
  intro l
  induction l with
  | nil => intro m h; simp [minByStart] at h
  | cons b rest ih =>
    intro m h x hx
    simp only [minByStart] at h
    cases hr : minByStart rest with
    | none =>
      rw [hr] at h
      dsimp only at h
      cases h
      have hrest : rest = [] := minByStart_eq_none.mp hr
      subst hrest
      rcases List.mem_cons.mp hx with h | h
      · subst h; exact le_refl _
      · cases h
    | some m' =>
      rw [hr] at h
      dsimp only at h
      by_cases hlt : m'.start_time < b.start_time
      · rw [if_pos hlt] at h
        cases h
        rcases List.mem_cons.mp hx with h | h
        · subst h; omega
        · exact ih hr x h
      · rw [if_neg hlt] at h
        cases h
        rcases List.mem_cons.mp hx with h | h
        · subst h; exact le_refl _
        · have := ih hr x h; omega

theorem charListLe_total (as : List Char) :
    ∀ bs, charListLe as bs = true ∨ charListLe bs as = true := by
  induction as with
  | nil => intro bs; left; rfl
  | cons a as ih =>
    intro bs
    cases bs with
    | nil => right; rfl
    | cons b bs =>
      simp only [charListLe]
      by_cases hab : a.toNat < b.toNat
      · left; rw [if_pos hab]
      · by_cases hba : b.toNat < a.toNat
        · right; rw [if_pos hba]
        · rcases ih bs with hc | hc
          · left; rw [if_neg hab, if_neg hba]; exact hc
          · right; rw [if_neg hba, if_neg hab]; exact hc

theorem charListLe_trans (as : List Char) :
    ∀ bs cs, charListLe as bs = true → charListLe bs cs = true →
      charListLe as cs = true := by
  induction as with
  | nil => intro bs cs h₁ h₂; rfl
  | cons a as ih =>
    intro bs cs h₁ h₂
    cases bs with
    | nil => simp [charListLe] at h₁
    | cons b bs =>
      cases cs with
      | nil => simp [charListLe] at h₂
      | cons c cs =>
        simp only [charListLe] at h₁ h₂ ⊢
        by_cases hab : a.toNat < b.toNat
        · by_cases hbc : b.toNat < c.toNat
          · rw [if_pos (Nat.lt_trans hab hbc)]
          · rw [if_neg hbc] at h₂
            by_cases hcb : c.toNat < b.toNat
            · rw [if_pos hcb] at h₂; exact absurd h₂ (by simp)
            · rw [if_pos (show a.toNat < c.toNat by omega)]
        · rw [if_neg hab] at h₁
          by_cases hba : b.toNat < a.toNat
          · rw [if_pos hba] at h₁; exact absurd h₁ (by simp)
          · rw [if_neg hba] at h₁
            by_cases hbc : b.toNat < c.toNat
            · rw [if_pos (show a.toNat < c.toNat by omega)]
            · rw [if_neg hbc] at h₂
              by_cases hcb : c.toNat < b.toNat
              · rw [if_pos hcb] at h₂; exact absurd h₂ (by simp)
              · rw [if_neg hcb] at h₂
                rw [if_neg (show ¬a.toNat < c.toNat by omega),
                  if_neg (show ¬c.toNat < a.toNat by omega)]
                exact ih bs cs h₁ h₂

instance : IsTotal StudentR nameLe :=
  ⟨fun a b => charListLe_total a.name.data b.name.data⟩

instance : IsTrans StudentR nameLe :=
  ⟨fun a b c => charListLe_trans a.name.data b.name.data c.name.data⟩

instance : IsTotal ComputerR compNameLe :=
  ⟨fun a b => charListLe_total a.name.data b.name.data⟩

instance : IsTrans ComputerR compNameLe :=
  ⟨fun a b c => charListLe_trans a.name.data b.name.data c.name.data⟩

theorem resolve_student_bookings (db : DB) (cu : UserR) :
    (resolve_student db cu).1.bookings = db.bookings := by
  unfold resolve_student
  cases findStudentByUser db cu.id <;> rfl

theorem resolve_student_of_found (db : DB) (cu : UserR) (s : StudentR)
    (h : findStudentByUser db cu.id = some s) : resolve_student db cu = (db, s) := by
  unfold resolve_student
  rw [h]

theorem find?_update_by_id {α : Type} (idOf : α → Nat) :
    ∀ (l : List α) (a a' : α) (n : Nat),
      l.find? (fun x => idOf x == n) = some a → idOf a' = idOf a →
      (l.map (fun x => if idOf x = idOf a' then a' else x)).find? (fun x => idOf x == n) =
        some a' := by
  intro l
  induction l with
  | nil => intro a a' n hf _; simp at hf
  | cons x xs ih =>
    intro a a' n hf hid
    rw [List.find?_cons] at hf
    rcases hx : (idOf x == n) with _ | _
    · rw [hx] at hf
      have hne : idOf x ≠ n := by simpa using hx
      have hmapped : (idOf (if idOf x = idOf a' then a' else x) == n) = false := by
        by_cases hcase : idOf x = idOf a'
        · rw [if_pos hcase]
          have : idOf a' ≠ n := fun hc => hne (hcase.trans hc)
          simpa using this
        · rw [if_neg hcase]; simpa using hne
      simp only [List.map_cons, List.find?_cons, hmapped]
      exact ih a a' n hf hid
    · rw [hx] at hf
      cases hf
      have hxid : idOf x = n := by simpa using hx
      have hcond : (if idOf x = idOf a' then a' else x) = a' := by rw [if_pos hid.symm]
      simp only [List.map_cons, List.find?_cons, hcond]
      simp [hid, hxid]

theorem findStudent_setStudent (db : DB) (s s' : StudentR) (sid : Nat)
    (hf : findStudent db sid = some s) (hid : s'.id = s.id) :
    findStudent (setStudent db s') sid = some s' := by
  unfold findStudent at hf
  unfold findStudent setStudent
  exact find?_update_by_id StudentR.id db.students s s' sid hf hid

theorem findStudent_setComputer (db : DB) (c : ComputerR) (sid : Nat) :
    findStudent (setComputer db c) sid = findStudent db sid := rfl

theorem findComputer_setStudent (db : DB) (s : StudentR) (cid : Nat) :
    findComputer (setStudent db s) cid = findComputer db cid := rfl

theorem findComputer_setComputer (db : DB) (c c' : ComputerR) (cid : Nat)
    (hf : findComputer db cid = some c) (hid : c'.id = c.id) :
    findComputer (setComputer db c') cid = some c' := by
  unfold findComputer at hf
  unfold findComputer setComputer
  exact find?_update_by_id ComputerR.id db.computers c c' cid hf hid

theorem win_start_le_win_end (day : Int) : win_start day ≤ win_end day := by
  unfold win_start win_end
  omega

theorem filter_ne_fresh (db : DB) (nb : BookingR) (hid : nb.id = freshBookingId db) :
    (db.bookings ++ [nb]).filter (fun b => b.id ≠ nb.id) = db.bookings := by
  rw [List.filter_append]
  have h1 : db.bookings.filter (fun b => b.id ≠ nb.id) = db.bookings := by
    rw [List.filter_eq_self]
    intro b hb
    have hlt := id_lt_freshBookingId db b hb
    rw [hid]
    simp only [decide_eq_true_eq, ne_eq]
    omega
  have h2 : List.filter (fun b => b.id ≠ nb.id) [nb] = [] := by simp
  rw [h1, h2, List.append_nil]

/-! ### Claim theorems -/

/-- C1: `create_booking_student` (with both datetime inputs parsed) fails with
the conflict error exactly when some existing booking on the requested
computer with status scheduled or active overlaps the requested half-open
interval (`existing.start < new.end` and `existing.end > new.start`); when no
such overlap exists it appends a new booking with status "scheduled" for that
computer and the resolved student. -/
theorem C1_create_booking_conflict_iff (db : DB) (cu : UserR) (now : Int)
    (bk : StudentBookingCreate) (pst pet : PyDateTime)
    (hs : parse_booking_dt (bk.start_time.data.contains 'T' && bk.start_time.data.length == 16)
      bk.start_time = some pst)
    (he : parse_booking_dt (bk.start_time.data.contains 'T' && bk.start_time.data.length == 16)
      bk.end_time = some pet) :
    ((create_booking_student db cu now bk).2 = .error slotConflictErr ↔
      ∃ b ∈ db.bookings, b.computer_id = bk.computer_id ∧
        (b.status = "scheduled" ∨ b.status = "active") ∧
        b.start_time < pydtToUtc pet ∧ pydtToUtc pst < b.end_time) ∧
    ((¬ ∃ b ∈ db.bookings, b.computer_id = bk.computer_id ∧
        (b.status = "scheduled" ∨ b.status = "active") ∧
        b.start_time < pydtToUtc pet ∧ pydtToUtc pst < b.end_time) →
      ∃ nb, (create_booking_student db cu now bk).2 = .ok nb ∧
        nb.status = "scheduled" ∧ nb.computer_id = bk.computer_id ∧
        nb.student_id = (resolve_student db cu).2.id ∧
        nb.start_time = pydtToUtc pst ∧ nb.end_time = pydtToUtc pet ∧
        (create_booking_student db cu now bk).1.bookings = db.bookings ++ [nb]) := by
  have hbk1 : (resolve_student db cu).1.bookings = db.bookings := resolve_student_bookings db cu
  have hiff :
      (0 < ((resolve_student db cu).1.bookings.filter
        (booking_conflict_pred bk.computer_id (pydtToUtc pst) (pydtToUtc pet))).length) ↔
      (∃ b ∈ db.bookings, b.computer_id = bk.computer_id ∧
        (b.status = "scheduled" ∨ b.status = "active") ∧
        b.start_time < pydtToUtc pet ∧ pydtToUtc pst < b.end_time) := by
    rw [hbk1, filter_pos_iff]
    simp only [booking_conflict_pred_iff]
  simp only [create_booking_student]
  rw [hs, he]
  dsimp only
  by_cases hC : ∃ b ∈ db.bookings, b.computer_id = bk.computer_id ∧
      (b.status = "scheduled" ∨ b.status = "active") ∧
      b.start_time < pydtToUtc pet ∧ pydtToUtc pst < b.end_time
  · rw [if_pos (hiff.mpr hC)]
    exact ⟨by simpa using hC, fun hnC => absurd hC hnC⟩
  · rw [if_neg (fun hlen => hC (hiff.mp hlen))]
    refine ⟨by simpa using hC, fun _ => ?_⟩
    exact ⟨_, rfl, rfl, rfl, rfl, rfl, rfl, by rw [hbk1]⟩

/-- C1 witness: with an existing booking 10:00-11:00 local, the overlapping
request 10:30-11:30 is rejected with the conflict error and the back-to-back
request 11:00-12:00 is accepted as a scheduled booking. -/
theorem C1_witness :
    (create_booking_student c1db u3 0 c1bkOverlap).2 = .error slotConflictErr ∧
    (∃ nb, (create_booking_student c1db u3 0 c1bkBack).2 = .ok nb ∧
      nb.status = "scheduled" ∧ nb.start_time = 1709539200 ∧ nb.end_time = 1709542800) := by
  constructor
  · exact (C1_create_booking_conflict_iff c1db u3 0 c1bkOverlap
      (.naive 1709548200) (.naive 1709551800) (by decide) (by decide)).1.mpr (by decide)
  · obtain ⟨nb, hok, hst, -, -, hs, he, -⟩ :=
      (C1_create_booking_conflict_iff c1db u3 0 c1bkBack
        (.naive 1709550000) (.naive 1709553600) (by decide) (by decide)).2 (by decide)
    exact ⟨nb, hok, hst, by rw [hs]; rfl, by rw [he]; rfl⟩

/-- C2 counterexample: student 5 has a booking that ends exactly at the window
start of 2024-03-04, so under half-open semantics the student has no booking
overlapping the working window and computer 2 is free; yet the first
`toggle_day_booking` call returns "removed" (deleting that booking) instead of
"added" — the claim as stated fails. -/
theorem C2_counterexample :
    (∀ b ∈ c2db.bookings,
      ¬(b.start_time < win_end 19786 ∧ win_start 19786 < b.end_time)) ∧
    (∀ b ∈ c2db.bookings, ¬(b.computer_id = 2)) ∧
    daysFromCivil 2024 3 4 = 19786 ∧
    toggle_day_booking c2db c2payload 0 = .ok ({ c2db with bookings := [] }, .removed) := by
  refine ⟨by decide, by decide, by decide, by decide⟩

/-- C2 (amended): when the student has no scheduled/active booking touching
the closed working window (start ≤ window end and end ≥ window start) and the
computer has no conflicting booking in the window, one `toggle_day_booking`
call adds an all-day (09:00-17:00 local) scheduled booking for that
computer/student pair, and an immediately repeated call removes exactly that
booking, restoring the original state. -/
theorem C2_toggle_round_trip (db : DB) (p : ToggleDayPayload) (now now2 : Int)
    (y m d : Nat) (hd : parseDateToggle p.date = some (y, m, d))
    (cid : Nat) (hcid : p.computer_id = some cid) (hc0 : cid ≠ 0)
    (hex : ∀ b ∈ db.bookings,
      ¬(b.student_id = p.student_id ∧ (b.status = "scheduled" ∨ b.status = "active") ∧
        b.start_time ≤ win_end (daysFromCivil y m d) ∧
        win_start (daysFromCivil y m d) ≤ b.end_time))
    (hconf : ∀ b ∈ db.bookings,
      ¬(b.computer_id = cid ∧ (b.status = "scheduled" ∨ b.status = "active") ∧
        b.start_time < win_end (daysFromCivil y m d) ∧
        win_start (daysFromCivil y m d) < b.end_time)) :
    ∃ nb,
      toggle_day_booking db p now =
        .ok ({ db with bookings := db.bookings ++ [nb] }, .added nb.id) ∧
      nb.student_id = p.student_id ∧ nb.computer_id = cid ∧
      nb.start_time = win_start (daysFromCivil y m d) ∧
      nb.end_time = win_end (daysFromCivil y m d) ∧ nb.status = "scheduled" ∧
      toggle_day_booking { db with bookings := db.bookings ++ [nb] } p now2 =
        .ok (db, .removed) := by
  have hfind : db.bookings.find?
      (day_overlap_pred p.student_id (win_start (daysFromCivil y m d))
        (win_end (daysFromCivil y m d))) = none := by
    rw [List.find?_eq_none]
    intro b hb hpred
    exact hex b hb ((day_overlap_pred_iff _ _ _ b).mp hpred)
  have hfilter : (db.bookings.filter
      (booking_conflict_pred cid (win_start (daysFromCivil y m d))
        (win_end (daysFromCivil y m d)))).length = 0 := by
    rw [List.length_eq_zero, List.filter_eq_nil_iff]
    intro b hb hpred
    exact hconf b hb ((booking_conflict_pred_iff _ _ _ b).mp hpred)
  refine ⟨⟨freshBookingId db, cid, p.student_id, win_start (daysFromCivil y m d),
    win_end (daysFromCivil y m d), "scheduled", now⟩, ?_, rfl, rfl, rfl, rfl, rfl, ?_⟩
  · simp only [toggle_day_booking]
    rw [hd]
    dsimp only
    rw [hfind, hcid]
    dsimp only
    rw [if_neg hc0, hfilter]
    rfl
  · simp only [toggle_day_booking]
    rw [hd]
    dsimp only
    have hnb : day_overlap_pred p.student_id (win_start (daysFromCivil y m d))
        (win_end (daysFromCivil y m d))
        ⟨freshBookingId db, cid, p.student_id, win_start (daysFromCivil y m d),
          win_end (daysFromCivil y m d), "scheduled", now⟩ = true := by
      rw [day_overlap_pred_iff]
      exact ⟨rfl, Or.inl rfl, win_start_le_win_end _, win_start_le_win_end _⟩
    rw [find?_append_none _ _ _ hfind]
    rw [List.find?_cons, hnb]
    dsimp only
    rw [filter_ne_fresh db ⟨freshBookingId db, cid, p.student_id,
      win_start (daysFromCivil y m d), win_end (daysFromCivil y m d),
      "scheduled", now⟩ rfl]

/-- C2 witness: on a clean state the toggle adds an all-day scheduled booking
and the repeated call removes it again, returning to the original state. -/
theorem C2_witness :
    ∃ nb, toggle_day_booking c2dbClean c2payload 0 =
        .ok ({ c2dbClean with bookings := c2dbClean.bookings ++ [nb] }, .added nb.id) ∧
      nb.status = "scheduled" ∧
      toggle_day_booking { c2dbClean with bookings := c2dbClean.bookings ++ [nb] }
        c2payload 1 = .ok (c2dbClean, .removed) := by
  obtain ⟨nb, h1, h2, h3, h4, h5, h6, h7⟩ :=
    C2_toggle_round_trip c2dbClean c2payload 0 1 2024 3 4 (by decide) 2 rfl (by decide)
      (by decide) (by decide)
  exact ⟨nb, h1, h6, h7⟩

/-- C9 (implicit): `toggle_day_booking` treats `computer_id = 0` exactly like
an absent `computer_id`: with no existing matching booking for the student on
the parsed day, both fail with the missing-computer validation error rather
than checking conflicts or creating a booking. -/
theorem C9_toggle_zero_computer (db : DB) (p : ToggleDayPayload) (now : Int)
    (y m d : Nat) (hd : parseDateToggle p.date = some (y, m, d))
    (h0 : p.computer_id = some 0)
    (hex : db.bookings.find?
      (day_overlap_pred p.student_id (win_start (daysFromCivil y m d))
        (win_end (daysFromCivil y m d))) = none) :
    toggle_day_booking db p now = .error computerRequiredErr ∧
    toggle_day_booking db { p with computer_id := none } now = .error computerRequiredErr := by
  constructor
  · simp only [toggle_day_booking]
    rw [hd]
    dsimp only
    rw [hex, h0]
    dsimp only
    rw [if_pos rfl]
  · simp only [toggle_day_booking]
    rw [show ({ p with computer_id := none } : ToggleDayPayload).date = p.date from rfl, hd]
    dsimp only
    rw [hex]

/-- C9 witness: with a clean state and the date 2024-03-04, supplying
`computer_id = 0` and omitting it both yield the validation error. -/
theorem C9_witness :
    toggle_day_booking c2dbClean c9payload 0 = .error computerRequiredErr ∧
    toggle_day_booking c2dbClean { c9payload with computer_id := none } 0 =
      .error computerRequiredErr :=
  C9_toggle_zero_computer c2dbClean c9payload 0 2024 3 4 (by decide) (by decide) (by decide)

/-- C10 (implicit): student self-service booking never inspects the student's
active flag, the linked user's active flag, or the usage-day quota.  With the
student row present, the handler leaves the students table (hence every quota
field) unchanged, its only failure modes are the datetime validation error and
the overlap conflict error, and whenever both inputs parse and no
computer-level overlap exists the booking is created — for every student row,
inactive or quota-exhausted ones included. -/
theorem C10_student_booking_ignores_quota (db : DB) (cu : UserR) (now : Int)
    (bk : StudentBookingCreate) (s : StudentR)
    (hs : findStudentByUser db cu.id = some s) :
    (create_booking_student db cu now bk).1.students = db.students ∧
    (∀ e, (create_booking_student db cu now bk).2 = .error e →
      e = invalidDatetimeErr ∨ e = slotConflictErr) ∧
    (∀ pst pet,
      parse_booking_dt (bk.start_time.data.contains 'T' && bk.start_time.data.length == 16)
        bk.start_time = some pst →
      parse_booking_dt (bk.start_time.data.contains 'T' && bk.start_time.data.length == 16)
        bk.end_time = some pet →
      (¬ ∃ b ∈ db.bookings, b.computer_id = bk.computer_id ∧
          (b.status = "scheduled" ∨ b.status = "active") ∧
          b.start_time < pydtToUtc pet ∧ pydtToUtc pst < b.end_time) →
      ∃ nb, create_booking_student db cu now bk =
        ({ db with bookings := db.bookings ++ [nb] }, .ok nb) ∧ nb.student_id = s.id) := by
  have hres : resolve_student db cu = (db, s) := resolve_student_of_found db cu s hs
  refine ⟨?_, ?_, ?_⟩
  · simp only [create_booking_student, hres]
    cases hp1 : parse_booking_dt (bk.start_time.data.contains 'T' &&
        bk.start_time.data.length == 16) bk.start_time with
    | none =>
      cases hp2 : parse_booking_dt (bk.start_time.data.contains 'T' &&
          bk.start_time.data.length == 16) bk.end_time <;> rfl
    | some pst =>
      cases hp2 : parse_booking_dt (bk.start_time.data.contains 'T' &&
          bk.start_time.data.length == 16) bk.end_time with
      | none => rfl
      | some pet =>
        dsimp only
        split <;> rfl
  · intro e he
    simp only [create_booking_student, hres] at he
    cases hp1 : parse_booking_dt (bk.start_time.data.contains 'T' &&
        bk.start_time.data.length == 16) bk.start_time with
    | none =>
      rw [hp1] at he
      cases hp2 : parse_booking_dt (bk.start_time.data.contains 'T' &&
          bk.start_time.data.length == 16) bk.end_time <;> rw [hp2] at he <;>
        simp only at he <;> cases he <;> exact Or.inl rfl
    | some pst =>
      rw [hp1] at he
      cases hp2 : parse_booking_dt (bk.start_time.data.contains 'T' &&
          bk.start_time.data.length == 16) bk.end_time with
      | none =>
        rw [hp2] at he
        simp only at he
        cases he
        exact Or.inl rfl
      | some pet =>
        rw [hp2] at he
        dsimp only at he
        split at he
        · cases he; exact Or.inr rfl
        · cases he
  · intro pst pet hp1 hp2 hnC
    simp only [create_booking_student, hres]
    rw [hp1, hp2]
    dsimp only
    have hlen : ¬ 0 < (db.bookings.filter
        (booking_conflict_pred bk.computer_id (pydtToUtc pst) (pydtToUtc pet))).length := by
      intro hpos
      rcases (filter_pos_iff _ _).mp hpos with ⟨b, hb, hpred⟩
      exact hnC ⟨b, hb, (booking_conflict_pred_iff _ _ _ b).mp hpred⟩
    rw [if_neg hlen]
    exact ⟨_, rfl, rfl⟩

/-- C10 witness: an inactive student with zero remaining usage days and an
inactive linked user still gets a booking created, and the students table is
untouched. -/
theorem C10_witness :
    s9inactive.active = some false ∧ s9inactive.usage_days_remaining = some 0 ∧
    (create_booking_student c10db c10user 0 c10bk).1.students = c10db.students ∧
    (∃ nb, create_booking_student c10db c10user 0 c10bk =
      ({ c10db with bookings := c10db.bookings ++ [nb] }, .ok nb) ∧ nb.student_id = 9) := by
  obtain ⟨h1, -, h3⟩ :=
    C10_student_booking_ignores_quota c10db c10user 0 c10bk s9inactive (by decide)
  obtain ⟨nb, hnb, hid⟩ := h3 (.naive 1709546400) (.naive 1709550000)
    (by decide) (by decide) (by decide)
  exact ⟨rfl, rfl, h1, ⟨nb, hnb, hid⟩⟩

theorem applyDecrement_id (s : StudentR) (now : Int) : (applyDecrement s now).id = s.id := by
  unfold applyDecrement
  cases s.usage_days_remaining with
  | none => rfl
  | some r =>
    dsimp only
    split <;> rfl

theorem shouldDecrement_iff (s : StudentR) (now : Int) :
    shouldDecrement s now = true ↔
      (s.usage_last_decrement_at = none ∨
        ∃ last, s.usage_last_decrement_at = some last ∧ localDay last < localDay now) := by
  unfold shouldDecrement
  cases h : s.usage_last_decrement_at with
  | none => simp
  | some last => simp

/-- C3: `admin_assign` decrements `usage_days_remaining` by exactly one at most
once per local calendar day — only when no prior decrement instant exists or
the current local date is strictly later — recording the decrement instant,
setting the active flag to false when the count reaches 0, and returning the
resulting count; and once the count has reached 0, any further `admin_assign`
for that student is rejected by the quota precondition (before any mutation,
since an error result leaves the store unchanged). -/
theorem C3_assign_decrement (db : DB) (cid sid : Nat) (now : Int) (db' : DB) (rem : Option Int)
    (h : admin_assign db cid sid now = .ok (db', rem)) :
    ∃ s, findStudent db sid = some s ∧
      ((s.usage_days_remaining = none ∧ rem = none ∧ findStudent db' sid = some s) ∨
       (∃ r : Int, s.usage_days_remaining = some r ∧ 0 < r ∧
         (((s.usage_last_decrement_at = none ∨
             ∃ last, s.usage_last_decrement_at = some last ∧ localDay last < localDay now) ∧
            rem = some (r - 1) ∧
            findStudent db' sid = some
              { s with
                usage_days_remaining := some (r - 1),
                usage_last_decrement_at := some now,
                active := if r - 1 ≤ 0 then some false else s.active }) ∨
          ((∃ last, s.usage_last_decrement_at = some last ∧ localDay now ≤ localDay last) ∧
            rem = some r ∧ findStudent db' sid = some s)))) ∧
      (rem = some 0 →
        ∀ cid2 now2 c2, findComputer db' cid2 = some c2 →
          admin_assign db' cid2 sid now2 = .error quotaErr) := by
  unfold admin_assign at h
  cases hc : findComputer db cid with
  | none => rw [hc] at h; simp at h
  | some computer =>
  cases hstu : findStudent db sid with
  | none => rw [hc, hstu] at h; simp at h
  | some student =>
  rw [hc, hstu] at h
  dsimp only at h
  by_cases hq : quotaExhausted student = true
  · rw [if_pos hq] at h; simp at h
  · rw [if_neg hq] at h
    by_cases hl : linkedUserInactive db student = true
    · rw [if_pos hl] at h; simp at h
    · rw [if_neg hl] at h
      by_cases ha : student.active = some false
      · rw [if_pos ha] at h; simp at h
      · rw [if_neg ha] at h
        by_cases hcs : computer.status = "in_use"
        · rw [if_pos hcs] at h; simp at h
        · rw [if_neg hcs] at h
          rw [Except.ok.injEq, Prod.mk.injEq] at h
          obtain ⟨hdb', hrem⟩ := h
          subst hdb'
          subst hrem
          have hfind' : findStudent
              (setComputer (setStudent db (applyDecrement student now))
                { computer with
                  status := "in_use", current_user := some student.name,
                  last_updated := now }) sid = some (applyDecrement student now) := by
            rw [findStudent_setComputer]
            exact findStudent_setStudent db student _ sid hstu (applyDecrement_id student now)
          refine ⟨student, rfl, ?_, ?_⟩
          · cases hur : student.usage_days_remaining with
            | none =>
              have happ : applyDecrement student now = student := by
                unfold applyDecrement; rw [hur]
              exact Or.inl ⟨rfl, by rw [happ, hur], by rw [happ] at hfind' ⊢; exact hfind'⟩
            | some r =>
              have hr0 : 0 < r := by
                unfold quotaExhausted at hq
                rw [hur] at hq
                simpa using hq
              refine Or.inr ⟨r, rfl, hr0, ?_⟩
              by_cases hsd : shouldDecrement student now = true
              · have hcond : (shouldDecrement student now && decide (0 < r)) = true := by
                  rw [hsd]; simpa using hr0
                have happ : applyDecrement student now =
                    { student with
                      usage_days_remaining := some (r - 1),
                      usage_last_decrement_at := some now,
                      active := if r - 1 ≤ 0 then some false else student.active } := by
                  unfold applyDecrement
                  rw [hur]
                  dsimp only
                  rw [if_pos hcond]
                refine Or.inl ⟨(shouldDecrement_iff student now).mp hsd, ?_, ?_⟩
                · rw [happ]
                · rw [happ] at hfind' ⊢; exact hfind'
              · have hsdf : shouldDecrement student now = false :=
                  Bool.eq_false_iff.mpr hsd
                have hcond : (shouldDecrement student now && decide (0 < r)) = false := by
                  rw [hsdf]; rfl
                have happ : applyDecrement student now = student := by
                  unfold applyDecrement
                  rw [hur]
                  dsimp only
                  rw [if_neg (by rw [hcond]; exact Bool.false_ne_true)]
                refine Or.inr ⟨?_, by rw [happ, hur], by rw [happ] at hfind' ⊢; exact hfind'⟩
                unfold shouldDecrement at hsdf
                cases hlast : student.usage_last_decrement_at with
                | none => rw [hlast] at hsdf; cases hsdf
                | some last =>
                  rw [hlast] at hsdf
                  refine ⟨last, rfl, ?_⟩
                  have : ¬ localDay last < localDay now := by simpa using hsdf
                  omega
          · intro hrem0 cid2 now2 c2 hc2
            unfold admin_assign
            rw [hc2, hfind']
            dsimp only
            have hqe : quotaExhausted (applyDecrement student now) = true := by
              unfold quotaExhausted
              rw [hrem0]
              rfl
            rw [if_pos hqe]

/-- C3 witness: a student with `usage_days_remaining = 1` and no prior
decrement is decremented to 0 by `admin_assign` (active flag set false in
`c3db2`), and a second call the same day is rejected by the quota check. -/
theorem C3_witness :
    admin_assign c3db 2 5 1709550000 = .ok (c3db2, some 0) ∧
    admin_assign c3db2 2 5 1709550500 = .error quotaErr := by
  have h1 : admin_assign c3db 2 5 1709550000 = .ok (c3db2, some 0) := by decide
  obtain ⟨s, hfind, hdisj, hB⟩ := C3_assign_decrement c3db 2 5 1709550000 c3db2 (some 0) h1
  exact ⟨h1, hB rfl 2 1709550500 ⟨2, "PC2", "in_use", some "Eve", 1709550000⟩ (by decide)⟩

/-- C4 counterexample: preconditions (c) — linked user inactive — and (d) —
student's own active flag false — produce the identical failure reason
(status 400, "Student is inactive and cannot be assigned"), so the claim that
each failing precondition has its own distinct failure reason is false. -/
theorem C4_counterexample :
    linkedUserInactive c4dbC c4studentC = true ∧ c4studentC.active = some true ∧
    c4studentD.user_id = none ∧ c4studentD.active = some false ∧
    admin_assign c4dbC 1 1 0 = .error inactiveErr ∧
    admin_assign c4dbD 1 1 0 = .error inactiveErr := by decide

/-- C4 (amended): `admin_assign` checks its preconditions in the order
(a) computer and student exist, (b) quota not exhausted, (c) linked user (if
any) active, (d) student's own active flag not false, (e) computer not already
in use; the first failing check determines the error; (a), (b) and (e) each
carry a distinct failure reason while (c) and (d) share the same one; on
success the computer becomes `in_use` with the student's name as occupant and
a refreshed timestamp. -/
theorem C4_assign_preconditions (db : DB) (cid sid : Nat) (now : Int) :
    ((findComputer db cid = none ∨ findStudent db sid = none) →
      admin_assign db cid sid now = .error notFoundErr) ∧
    (∀ c s, findComputer db cid = some c → findStudent db sid = some s →
      (quotaExhausted s = true → admin_assign db cid sid now = .error quotaErr) ∧
      (quotaExhausted s = false → linkedUserInactive db s = true →
        admin_assign db cid sid now = .error inactiveErr) ∧
      (quotaExhausted s = false → linkedUserInactive db s = false → s.active = some false →
        admin_assign db cid sid now = .error inactiveErr) ∧
      (quotaExhausted s = false → linkedUserInactive db s = false → s.active ≠ some false →
        c.status = "in_use" → admin_assign db cid sid now = .error busyErr) ∧
      (quotaExhausted s = false → linkedUserInactive db s = false → s.active ≠ some false →
        c.status ≠ "in_use" →
        ∃ db' rem, admin_assign db cid sid now = .ok (db', rem) ∧
          findComputer db' cid = some
            { c with
              status := "in_use", current_user := some s.name,
              last_updated := now })) ∧
    (notFoundErr ≠ quotaErr ∧ notFoundErr ≠ inactiveErr ∧ notFoundErr ≠ busyErr ∧
      quotaErr ≠ inactiveErr ∧ quotaErr ≠ busyErr ∧ inactiveErr ≠ busyErr) := by
  refine ⟨?_, ?_, by decide⟩
  · intro hnone
    unfold admin_assign
    rcases hnone with hcn | hsn
    · rw [hcn]
    · cases hcc : findComputer db cid with
      | none => rfl
      | some c => rw [hsn]
  · intro c s hc hs
    refine ⟨?_, ?_, ?_, ?_, ?_⟩
    · intro hq
      unfold admin_assign
      rw [hc, hs]
      dsimp only
      rw [if_pos hq]
    · intro hq hl
      unfold admin_assign
      rw [hc, hs]
      dsimp only
      rw [if_neg (by simp [hq]), if_pos hl]
    · intro hq hl ha
      unfold admin_assign
      rw [hc, hs]
      dsimp only
      rw [if_neg (by simp [hq]), if_neg (by simp [hl]), if_pos ha]
    · intro hq hl ha hcs
      unfold admin_assign
      rw [hc, hs]
      dsimp only
      rw [if_neg (by simp [hq]), if_neg (by simp [hl]), if_neg ha, if_pos hcs]
    · intro hq hl ha hcs
      unfold admin_assign
      rw [hc, hs]
      dsimp only
      rw [if_neg (by simp [hq]), if_neg (by simp [hl]), if_neg ha, if_neg hcs]
      refine ⟨_, _, rfl, ?_⟩
      have hstep : findComputer (setStudent db (applyDecrement s now)) cid = some c := by
        rw [findComputer_setStudent]; exact hc
      exact findComputer_setComputer _ c _ cid hstep rfl

/-- C4 witness: on a clean state every precondition passes and the computer row
becomes `in_use`, occupied by the student's display name, stamped with the
call instant. -/
theorem C4_witness :
    ∃ db' rem, admin_assign c2dbClean 2 5 77 = .ok (db', rem) ∧
      findComputer db' 2 = some ⟨2, "PC2", "in_use", some "Stu", 77⟩ := by
  obtain ⟨hA, h2, hD⟩ := C4_assign_preconditions c2dbClean 2 5 77
  obtain ⟨h2a, h2b, h2c, h2d, h5⟩ :=
    h2 ⟨2, "PC2", "available", none, 0⟩ c2student (by decide) (by decide)
  exact h5 (by decide) (by decide) (by decide) (by decide)

/-- C5 counterexample: a booking whose end instant equals the window start of
Monday 2024-03-04 does not half-open-overlap the working window, yet
`get_week_schedule` reports it in that Monday's day cell — its day-cell lookup
(like `toggle_day_booking`'s existing-booking check, see the C2
counterexample) treats boundary-touching bookings as overlapping. -/
theorem C5_counterexample :
    c5booking.end_time = win_start 19786 ∧
    ¬(c5booking.start_time < win_end 19786 ∧ win_start 19786 < c5booking.end_time) ∧
    (get_week_schedule c5db c5now).rows =
      [⟨5, "Stu", [⟨19786, true, some 1, some 2⟩, ⟨19787, false, none, none⟩,
        ⟨19788, false, none, none⟩, ⟨19789, false, none, none⟩,
        ⟨19790, false, none, none⟩]⟩] := by
  refine ⟨by decide, by decide, by decide⟩

/-- C5 (amended): the computer-level conflict checks (`create_booking_student`
and `toggle_day_booking`'s availability check) use the strict half-open test
`start < window end AND end > window start`, so a booking ending exactly at
the window start never conflicts; but `toggle_day_booking`'s existing-booking
check and `get_week_schedule`'s day-cell lookup use the inclusive test
`start ≤ window end AND end ≥ window start`, which does treat such a
boundary-touching booking as overlapping. -/
theorem C5_overlap_comparisons (b : BookingR) (cid sid : Nat) (ws we : Int) :
    (booking_conflict_pred cid ws we b = true ↔
      b.computer_id = cid ∧ (b.status = "scheduled" ∨ b.status = "active") ∧
        b.start_time < we ∧ ws < b.end_time) ∧
    (day_overlap_pred sid ws we b = true ↔
      b.student_id = sid ∧ (b.status = "scheduled" ∨ b.status = "active") ∧
        b.start_time ≤ we ∧ ws ≤ b.end_time) ∧
    (b.end_time = ws → booking_conflict_pred cid ws we b = false) ∧
    (b.end_time = ws → b.student_id = sid → (b.status = "scheduled" ∨ b.status = "active") →
      b.start_time ≤ we → day_overlap_pred sid ws we b = true) := by
  refine ⟨booking_conflict_pred_iff cid ws we b, day_overlap_pred_iff sid ws we b, ?_, ?_⟩
  · intro hend
    rcases hb : booking_conflict_pred cid ws we b with _ | _
    · rfl
    · obtain ⟨-, -, -, hlt⟩ := (booking_conflict_pred_iff cid ws we b).mp hb
      omega
  · intro hend hsid hstat hstart
    rw [day_overlap_pred_iff]
    exact ⟨hsid, hstat, hstart, by omega⟩

/-- C5 witness: the boundary booking of the counterexample state is excluded
by the strict conflict predicate and included by the inclusive day lookup. -/
theorem C5_witness :
    booking_conflict_pred 2 (win_start 19786) (win_end 19786) c5booking = false ∧
    day_overlap_pred 5 (win_start 19786) (win_end 19786) c5booking = true := by
  obtain ⟨-, -, h3, h4⟩ :=
    C5_overlap_comparisons c5booking 2 5 (win_start 19786) (win_end 19786)
  exact ⟨h3 (by decide), h4 (by decide) (by decide) (by decide) (by decide)⟩

/-- Full behaviour of one `get_week_schedule` grid cell. -/
theorem dayCell_spec (bs : List BookingR) (sid : Nat) (day : Int) :
    ((dayCell bs sid day).day = day) ∧
    (((dayCell bs sid day).has_booking = false ∧ (dayCell bs sid day).booking_id = none ∧
        ∀ b ∈ bs, ¬ dayQualifies sid day b) ∨
     (∃ b ∈ bs, (dayCell bs sid day).has_booking = true ∧
        (dayCell bs sid day).booking_id = some b.id ∧
        (dayCell bs sid day).comp_id = some b.computer_id ∧ dayQualifies sid day b ∧
        ∀ b' ∈ bs, dayQualifies sid day b' → b.start_time ≤ b'.start_time)) := by
  unfold dayCell
  cases hm : minByStart (bs.filter (day_overlap_pred sid (win_start day) (win_end day))) with
  | none =>
    dsimp only
    have hnil := minByStart_eq_none.mp hm
    refine ⟨rfl, Or.inl ⟨rfl, rfl, ?_⟩⟩
    intro b hb hq
    have hmem : b ∈ bs.filter (day_overlap_pred sid (win_start day) (win_end day)) :=
      List.mem_filter.mpr ⟨hb, (day_overlap_pred_iff_qualifies sid day b).mpr hq⟩
    rw [hnil] at hmem
    cases hmem
  | some m =>
    dsimp only
    have hmem := minByStart_mem hm
    have hmin := minByStart_min hm
    refine ⟨rfl, Or.inr ⟨m, List.mem_of_mem_filter hmem, rfl, rfl, rfl,
      (day_overlap_pred_iff_qualifies sid day m).mp (List.of_mem_filter hmem), ?_⟩⟩
    intro b' hb' hq'
    exact hmin b'
      (List.mem_filter.mpr ⟨hb', (day_overlap_pred_iff_qualifies sid day b').mpr hq'⟩)

/-- C6 counterexample: in a state where no booking half-open-overlaps
Monday's working window (the only booking ends exactly at the window start),
the frozen claim requires every Monday cell to report absence; yet
`get_week_schedule` marks Tom's Monday cell as having that booking, because
its day-cell lookup uses the inclusive comparison rather than half-open
overlap — the claim as stated is false. -/
theorem C6_counterexample :
    (∀ b ∈ c6db.bookings,
      ¬(b.start_time < win_end 19786 ∧ win_start 19786 < b.end_time)) ∧
    daysFromCivil 2024 3 4 = 19786 ∧
    (get_week_schedule c6db c6now).rows =
      [⟨6, "Tom", [⟨19786, true, some 2, some 4⟩, ⟨19787, false, none, none⟩,
        ⟨19788, false, none, none⟩, ⟨19789, false, none, none⟩,
        ⟨19790, false, none, none⟩]⟩] := by
  refine ⟨by decide, by decide, by decide⟩

/-- C6 (amended): `get_week_schedule` is a pure projection returning exactly
one row per student (ids a permutation of the student table), ordered by
student name; in each of the 5 day cells of a row it reports at most one
scheduled/active booking of that student whose interval meets that day's
working window under the code's inclusive comparison (start ≤ window end and
end ≥ window start, the `dayQualifies` predicate) — one with the earliest
start instant when several qualify — and absence otherwise; and with zero
bookings every cell of every row reports no booking. -/
theorem C6_week_schedule (db : DB) (now : Int) :
    List.Perm ((get_week_schedule db now).rows.map (fun r => r.row_student_id))
      (db.students.map (fun s => s.id)) ∧
    List.Sorted (fun a b : String => charListLe a.data b.data = true)
      ((get_week_schedule db now).rows.map (fun r => r.student_name)) ∧
    (∀ r ∈ (get_week_schedule db now).rows, ∃ s ∈ db.students,
      r.row_student_id = s.id ∧ r.student_name = s.name ∧
      r.days.map (fun c => c.day) = weekDays now ∧
      ∀ cell ∈ r.days,
        ((cell.has_booking = false ∧ cell.booking_id = none ∧
            ∀ b ∈ db.bookings, ¬ dayQualifies s.id cell.day b) ∨
         (∃ b ∈ db.bookings, cell.has_booking = true ∧ cell.booking_id = some b.id ∧
            cell.comp_id = some b.computer_id ∧ dayQualifies s.id cell.day b ∧
            ∀ b' ∈ db.bookings, dayQualifies s.id cell.day b' →
              b.start_time ≤ b'.start_time))) ∧
    (db.bookings = [] → ∀ r ∈ (get_week_schedule db now).rows, ∀ cell ∈ r.days,
      cell.has_booking = false) := by
  have hrows : (get_week_schedule db now).rows =
      (List.insertionSort nameLe db.students).map
        (fun s => ⟨s.id, s.name, (weekDays now).map (dayCell db.bookings s.id)⟩) := rfl
  have hsorted := List.sorted_insertionSort nameLe db.students
  have hperm := List.perm_insertionSort nameLe db.students
  refine ⟨?_, ?_, ?_, ?_⟩
  · have hmap : (get_week_schedule db now).rows.map (fun r => r.row_student_id) =
        (List.insertionSort nameLe db.students).map (fun s => s.id) := by
      rw [hrows, List.map_map]
      rfl
    rw [hmap]
    exact hperm.map (fun s => s.id)
  · have hmap : (get_week_schedule db now).rows.map (fun r => r.student_name) =
        (List.insertionSort nameLe db.students).map (fun s => s.name) := by
      rw [hrows, List.map_map]
      rfl
    rw [hmap]
    exact List.Pairwise.map _ (fun a b hab => hab) hsorted
  · intro r hr
    rw [hrows] at hr
    rcases List.mem_map.mp hr with ⟨s, hsmem, hseq⟩
    refine ⟨s, hperm.subset hsmem, ?_, ?_, ?_, ?_⟩
    · rw [← hseq]
    · rw [← hseq]
    · rw [← hseq]
      dsimp only
      rw [List.map_map]
      have hdays : ∀ day ∈ weekDays now,
          ((fun c => c.day) ∘ dayCell db.bookings s.id) day = id day :=
        fun day _ => (dayCell_spec db.bookings s.id day).1
      rw [List.map_congr_left hdays, List.map_id]
    · intro cell hcell
      rw [← hseq] at hcell
      dsimp only at hcell
      rcases List.mem_map.mp hcell with ⟨day, hday, hcelleq⟩
      subst hcelleq
      have hspec := dayCell_spec db.bookings s.id day
      rw [hspec.1]
      exact hspec.2
  · intro hempty r hr cell hcell
    rw [hrows] at hr
    rcases List.mem_map.mp hr with ⟨s, hsmem, hseq⟩
    rw [← hseq] at hcell
    dsimp only at hcell
    rcases List.mem_map.mp hcell with ⟨day, hday, hcelleq⟩
    subst hcelleq
    rw [hempty]
    rfl

/-- C6 witness: on the concrete one-student state the row ids are a
permutation of the student ids and the names are sorted. -/
theorem C6_witness :
    List.Perm ((get_week_schedule c1db 1709550000).rows.map (fun r => r.row_student_id))
      (c1db.students.map (fun s => s.id)) ∧
    List.Sorted (fun a b : String => charListLe a.data b.data = true)
      ((get_week_schedule c1db 1709550000).rows.map (fun r => r.student_name)) := by
  obtain ⟨h1, h2, -, -⟩ := C6_week_schedule c1db 1709550000
  exact ⟨h1, h2⟩

/-- C7: admin student creation lowercases and trims `student_id` and `email`
before the uniqueness pre-check (so "DuP123"/"X@Y.com" followed by
"dup123"/"x@y.com" is a 409 conflict with no second row), and a duplicate-key
violation at the storage layer during the insert — a race past the pre-check —
is caught and re-mapped to the same 409 conflict taxonomy. -/
theorem C7_student_create_conflict :
    (∃ db1 s1, create_student_admin emptyDB emptyDB p7first = .ok (db1, s1) ∧
      s1.student_id = "dup123" ∧ s1.email = "x@y.com" ∧ db1.students = [s1] ∧
      create_student_admin db1 db1 p7second =
        .error ⟨409, "Student ID and email already exist"⟩) ∧
    (∀ dbPre dbIns p dup,
      dupPrecheck dbPre.students (normKey p.student_id) (normKey p.email) = some dup →
      create_student_admin dbPre dbIns p =
        .error ⟨409, dupDetail dup (normKey p.student_id) (normKey p.email)⟩) ∧
    (∀ dbPre dbIns p,
      dupPrecheck dbPre.students (normKey p.student_id) (normKey p.email) = none →
      uniqueViolation dbIns.students (normKey p.student_id) (normKey p.email) = true →
      create_student_admin dbPre dbIns p = .error raceConflictErr) ∧
    raceConflictErr.status = 409 := by
  refine ⟨?_, ?_, ?_, rfl⟩
  · exact ⟨⟨[], [s7row], [], []⟩, s7row, by decide, rfl, rfl, rfl, by decide⟩
  · intro dbPre dbIns p dup hdup
    simp only [create_student_admin]
    rw [hdup]
  · intro dbPre dbIns p hdup hviol
    simp only [create_student_admin]
    rw [hdup]
    dsimp only
    rw [if_pos hviol]

/-- C7 witness: a pre-check-clean first snapshot with an exact duplicate at
insert time yields the re-mapped 409 conflict. -/
theorem C7_witness :
    create_student_admin emptyDB db7race p7race = .error raceConflictErr := by
  obtain ⟨-, -, h3, -⟩ := C7_student_create_conflict
  exact h3 emptyDB db7race p7race (by decide) (by decide)

/-- C8: admin usage adjustment by a nonzero delta clamps both counters at 0
(initialising unset ones to 0 first) and re-activates the student whenever the
resulting remaining count is positive; a zero delta changes nothing. -/
theorem C8_usage_adjustment (db : DB) (sid : Nat) (days : Int) (s : StudentR)
    (hs : findStudent db sid = some s) :
    (days = 0 → update_student_usage db sid days =
      .ok (db, s.usage_days_total, s.usage_days_remaining)) ∧
    (days ≠ 0 →
      ∃ s', update_student_usage db sid days =
          .ok (setStudent db s', s'.usage_days_total, s'.usage_days_remaining) ∧
        s'.usage_days_total = some (max 0 (s.usage_days_total.getD 0 + days)) ∧
        s'.usage_days_remaining = some (max 0 (s.usage_days_remaining.getD 0 + days)) ∧
        (∀ t, s'.usage_days_total = some t → 0 ≤ t) ∧
        (∀ r, s'.usage_days_remaining = some r → 0 ≤ r) ∧
        ((∃ r, s'.usage_days_remaining = some r ∧ 0 < r) → s'.active = some true) ∧
        findStudent (setStudent db s') sid = some s') := by
  constructor
  · intro h0
    unfold update_student_usage
    rw [hs]
    dsimp only
    rw [if_pos h0]
  · intro hne
    unfold update_student_usage
    rw [hs]
    dsimp only
    rw [if_neg hne]
    refine ⟨_, rfl, rfl, rfl, ?_, ?_, ?_, ?_⟩
    · intro t ht
      rw [Option.some.injEq] at ht
      omega
    · intro rr hrr
      rw [Option.some.injEq] at hrr
      omega
    · rintro ⟨rr, hrr, hpos⟩
      rw [Option.some.injEq] at hrr
      dsimp only
      rw [if_pos (by omega)]
    · exact findStudent_setStudent db s _ sid hs rfl

/-- C8 witness: a zero delta leaves the state untouched; a delta of 3 on unset
counters initialises them to 0, adds 3 and re-activates the student. -/
theorem C8_witness :
    update_student_usage c2dbClean 5 0 = .ok (c2dbClean, none, none) ∧
    (∃ s', update_student_usage c2dbClean 5 3 =
        .ok (setStudent c2dbClean s', s'.usage_days_total, s'.usage_days_remaining) ∧
      s'.usage_days_remaining = some 3 ∧ s'.active = some true) := by
  obtain ⟨h0, -⟩ := C8_usage_adjustment c2dbClean 5 0 c2student (by decide)
  obtain ⟨-, hpos⟩ := C8_usage_adjustment c2dbClean 5 3 c2student (by decide)
  obtain ⟨s', heq, ht, hr, hc1, hc2, hact, hfind⟩ := hpos (by decide)
  have h3 : s'.usage_days_remaining = some 3 := by rw [hr]; decide
  exact ⟨h0 rfl, s', heq, h3, hact ⟨3, h3, by decide⟩⟩

end LabSched
